import Mathlib

/-!
Verification of the Springer metadata plugin (`src/__init__.py`).

The whole program is the single method `SpringerMetadata.identify`.  We give a
shallow embedding: the fetched-and-parsed HTML page is modelled at the level of
the XPath queries the code runs (a list of bibliographic items, each carrying
the texts of its label spans, value spans, publication-date spans and links),
the network fetch outcome is an explicit parameter, Python exceptions become
`Except String`, the log sink and the result queue become lists in the output.
String operations mirror the CPython semantics of `strip`, `split`, `lower`,
`replace`, `in` and `strptime` on the formats the code uses.
-/

namespace SpringerSpec

/-! ### String primitives (CPython semantics, implemented over `List Char`) -/

/-- Python `str.strip()` on the left: drop leading whitespace characters. -/
def trimLeftChars (l : List Char) : List Char := l.dropWhile Char.isWhitespace

/-- Python `str.strip()`: drop leading and trailing whitespace. -/
def strTrim (s : String) : String :=
  String.mk ((trimLeftChars (trimLeftChars s.data).reverse).reverse)

/-- Python `str.lower()` (ASCII case folding, all the program needs). -/
def strToLower (s : String) : String := String.mk (s.data.map Char.toLower)

/-- Python `pat in s` (substring containment). -/
def strContainsSub (s pat : String) : Bool :=
  s.data.tails.any (fun t => pat.data.isPrefixOf t)

/-- Split a character list at every character satisfying `p`, keeping empty
segments, as Python `str.split(sep)` does for a one-character separator. -/
def splitPred (p : Char → Bool) (l : List Char) : List (List Char) :=
  match l with
  | [] => [[]]
  | x :: rest =>
    let r := splitPred p rest
    if p x then [] :: r
    else
      match r with
      | [] => [[x]]
      | h :: t => (x :: h) :: t

/-- Python `s.split(',')`. -/
def splitComma (s : String) : List String :=
  (splitPred (fun c => c = ',') s.data).map String.mk

/-- Helper for `removeAllChars`: while `skip > 0` the current character is part
of an occurrence already matched and is dropped. -/
def removeAllAux (pat : List Char) (l : List Char) (skip : Nat) : List Char :=
  match l, skip with
  | [], _ => []
  | _ :: rest, Nat.succ k => removeAllAux pat rest k
  | c :: rest, 0 =>
    if pat ≠ [] ∧ pat.isPrefixOf (c :: rest) then removeAllAux pat rest (pat.length - 1)
    else c :: removeAllAux pat rest 0

/-- Python `str.replace(pat, '')`: delete every (left-to-right,
non-overlapping) occurrence of `pat`. -/
def removeAllChars (pat : List Char) (l : List Char) : List Char :=
  removeAllAux pat l 0

/-- Python `s.replace(pat, '')`. -/
def strRemove (s pat : String) : String := String.mk (removeAllChars pat.data s.data)

/-- Python `', '.join(l)`. -/
def joinWith (sep : String) (l : List String) : String :=
  match l with
  | [] => ""
  | h :: t => t.foldl (fun acc x => acc ++ sep ++ x) h

/-! ### `datetime.strptime` on the three formats the code tries -/

/-- Calendar date produced by a successful `strptime` call (the time part is
always midnight and is dropped). -/
structure PDate where
  year : Nat
  month : Nat
  day : Nat
deriving Repr, DecidableEq

/-- Numeric value of a digit string. -/
def digitsToNat (l : List Char) : Nat :=
  l.foldl (fun acc c => acc * 10 + (c.toNat - 48)) 0

/-- The `%d` directive: one or two digits with value between 1 and 31
(`strptime` pattern `3[01]|[12]\d|0[1-9]|[1-9]` as a whole token). -/
def parseDay (s : String) : Option Nat :=
  if (s.data.length = 1 ∨ s.data.length = 2) ∧ s.data.all Char.isDigit then
    let d := digitsToNat s.data
    if 1 ≤ d ∧ d ≤ 31 then some d else none
  else none

/-- Full English month names, as the C-locale `%B` directive matches them. -/
def monthNames : List String :=
  ["january", "february", "march", "april", "may", "june",
   "july", "august", "september", "october", "november", "december"]

/-- The `%B` directive: a full month name, case-insensitively. -/
def parseMonth (s : String) : Option Nat :=
  (monthNames.findIdx? (fun n => n = strToLower s)).map (fun i => i + 1)

/-- The `%Y` directive: exactly four digits; `datetime` additionally rejects
year 0 (`MINYEAR` is 1). -/
def parseYear (s : String) : Option Nat :=
  if s.data.length = 4 ∧ s.data.all Char.isDigit then
    let y := digitsToNat s.data
    if 1 ≤ y then some y else none
  else none

/-- Gregorian leap-year rule used by `datetime`'s day-of-month validation. -/
def isLeap (y : Nat) : Bool :=
  (y % 4 == 0 && y % 100 != 0) || y % 400 == 0

/-- Number of days in a month, for `datetime`'s validation of `%d`. -/
def monthLength (y m : Nat) : Nat :=
  if m = 2 then (if isLeap y then 29 else 28)
  else if m = 4 ∨ m = 6 ∨ m = 9 ∨ m = 11 then 30
  else 31

/-- Whitespace-separated tokens of a string (a literal space in a `strptime`
format matches a nonempty whitespace run in the data). -/
def wsTokens (s : String) : List String :=
  ((splitPred Char.isWhitespace s.data).filter (fun t => t ≠ [])).map String.mk

/-- True when the string starts or ends with whitespace; `strptime` then fails
(its regex is anchored and must consume the whole data string). -/
def hasEdgeWs (s : String) : Bool :=
  (match s.data.head? with | some c => c.isWhitespace | none => false) ||
  (match s.data.getLast? with | some c => c.isWhitespace | none => false)

/-- `datetime.strptime(s, '%d %B %Y')`, e.g. `"30 August 2025"`. -/
def parseDMY (s : String) : Option PDate :=
  if hasEdgeWs s then none
  else
    match wsTokens s with
    | [d, m, y] =>
      match parseDay d, parseMonth m, parseYear y with
      | some day, some mon, some yr =>
        if day ≤ monthLength yr mon then some ⟨yr, mon, day⟩ else none
      | _, _, _ => none
    | _ => none

/-- `datetime.strptime(s, '%B %Y')`, e.g. `"August 2025"`; day defaults to 1. -/
def parseMY (s : String) : Option PDate :=
  if hasEdgeWs s then none
  else
    match wsTokens s with
    | [m, y] =>
      match parseMonth m, parseYear y with
      | some mon, some yr => some ⟨yr, mon, 1⟩
      | _, _ => none
    | _ => none

/-- `datetime.strptime(s, '%Y')`; month and day default to 1. -/
def parseY (s : String) : Option PDate :=
  if hasEdgeWs s then none
  else
    match wsTokens s with
    | [y] =>
      match parseYear y with
      | some yr => some ⟨yr, 1, 1⟩
      | _ => none
    | _ => none

/-- The nested `try`/`except` ladder of lines 96–109: try `'%d %B %Y'`, then
`'%B %Y'`, then `'%Y'`; the first format that parses wins, and if none does
the result is `none` (the code sets `pubdate = None`). -/
def parseDate (s : String) : Option PDate :=
  match parseDMY s with
  | some d => some d
  | none =>
    match parseMY s with
    | some d => some d
    | none => parseY s

/-! ### The Python `dict` used for the Raw Field Map -/

/-- Lookup in an insertion-ordered association list (`meta.get(k)`). -/
def dictGet (m : List (String × String)) (k : String) : Option String :=
  (m.find? (fun p => p.1 = k)).map (fun p => p.2)

/-- `meta.get(k, d)`. -/
def dictGetD (m : List (String × String)) (k d : String) : String :=
  (dictGet m k).getD d

/-- `meta[k] = v`: overwrite in place when the key exists, append otherwise
(CPython dicts keep insertion order). -/
def dictSet (m : List (String × String)) (k v : String) : List (String × String) :=
  if m.any (fun p => p.1 = k) then
    m.map (fun p => if p.1 = k then (k, v) else p)
  else m ++ [(k, v)]

/-! ### Page model

The parsed HTML tree is modelled at the granularity of the XPath queries in
lines 57–127 of `identify`.  A `BibItem` is one
`li.c-bibliographic-information__list-item`; its fields are the query results
the code reads from it.  An element's `.text` may be `None` in lxml, hence
`Option String`; `xpath('string()')` always yields a string. -/

/-- One bibliographic list item. -/
structure BibItem where
  /-- Texts of the `span.u-text-bold` label spans (`.text`, possibly null). -/
  labels : List (Option String)
  /-- `string()` contents of the `span.c-bibliographic-information__value`
  spans (never null). -/
  values : List String
  /-- Texts of the `span[data-test*=publication_date]` spans. -/
  dateSpans : List (Option String)
  /-- Texts of the `a` descendants (`.text`, possibly null). -/
  links : List (Option String)
deriving Repr, DecidableEq

/-- The parsed page, at the granularity `identify` inspects it. -/
structure Page where
  /-- The `section[data-title='Bibliographic Information']` hits, each as its
  list of bibliographic items. -/
  bibSections : List (List BibItem)
  /-- The `section[data-title='About this book']` hits, each as the list of
  its `div.c-book-section` children serialized to HTML. -/
  aboutSections : List (List String)
deriving Repr, DecidableEq

/-- `bib_items`: items of the first bibliographic section, `[]` if none. -/
def bibItemsOf (page : Page) : List BibItem :=
  match page.bibSections with
  | [] => []
  | s :: _ => s

/-- Message of the `AttributeError` raised by `None.strip()`. -/
def errStrip : String := "NoneType object has no attribute strip"

/-- Message of the `AttributeError` raised by `None.replace(...)`. -/
def errReplace : String := "NoneType object has no attribute replace"

/-- Line 63: `label[0].text.strip() if label else None`; raises when the first
label span has a null `.text`. -/
def labelTextOf (item : BibItem) : Except String (Option String) :=
  match item.labels with
  | [] => Except.ok none
  | none :: _ => Except.error errStrip
  | some t :: _ => Except.ok (some (strTrim t))

/-- Line 64: `value[0].xpath('string()').strip() if value else None`. -/
def valueTextOf (item : BibItem) : Option String :=
  match item.values with
  | [] => none
  | v :: _ => some (strTrim v)

/-- Lines 65–66: `if label_text and value_text: meta[label_text] = value_text`
(Python truthiness: both must be non-`None` and nonempty). -/
def metaAfterPair (meta : List (String × String)) (lt? vt? : Option String) :
    List (String × String) :=
  match lt?, vt? with
  | some l, some v => if l ≠ "" ∧ v ≠ "" then dictSet meta l v else meta
  | _, _ => meta

/-- Lines 68–71: for a truthy label containing `'ISBN'`, record the sibling
publication date (with the `Published:` prefix removed and stripped) under
`<label> Date`; raises when the date span's text is null. -/
def metaAfterDate (meta : List (String × String)) (lt? : Option String)
    (dateSpans : List (Option String)) : Except String (List (String × String)) :=
  match lt? with
  | some l =>
    if l ≠ "" ∧ strContainsSub l "ISBN" = true then
      match dateSpans with
      | [] => Except.ok meta
      | none :: _ => Except.error errReplace
      | some t :: _ =>
        Except.ok (dictSet meta (l ++ " Date") (strTrim (strRemove t "Published:")))
    else Except.ok meta
  | none => Except.ok meta

/-- One iteration of the Raw-Field-Map loop (lines 60–71). -/
def bibStep (meta : List (String × String)) (item : BibItem) :
    Except String (List (String × String)) :=
  match labelTextOf item with
  | Except.error e => Except.error e
  | Except.ok lt? =>
    metaAfterDate (metaAfterPair meta lt? (valueTextOf item)) lt? item.dateSpans

/-- A Python `for` loop over `l` whose body may raise: thread the accumulator
through `f`, aborting on the first exception. -/
def foldES {α β : Type} (f : β → α → Except String β) (init : β) (l : List α) :
    Except String β :=
  match l with
  | [] => Except.ok init
  | x :: rest =>
    match f init x with
    | Except.error e => Except.error e
    | Except.ok b => foldES f b rest

/-- The Raw Field Map `meta` built by the loop over all items. -/
def buildMeta (items : List BibItem) : Except String (List (String × String)) :=
  foldES bibStep [] items

/-- The list comprehension `[a.text.strip() for a in topics_links]`: strips
every link text from left to right, raising on the first null text. -/
def stripLinks (links : List (Option String)) : Except String (List String) :=
  match links with
  | [] => Except.ok []
  | none :: _ => Except.error errStrip
  | some t :: rest =>
    match stripLinks rest with
    | Except.error e => Except.error e
    | Except.ok r => Except.ok (strTrim t :: r)

/-- One iteration of the topics loop (lines 114–119): on a label equal to
`'Topics'`, replace the accumulated topics by the stripped link texts. -/
def topicsStep (topics : List String) (item : BibItem) : Except String (List String) :=
  match labelTextOf item with
  | Except.error e => Except.error e
  | Except.ok lt? =>
    if lt? = some "Topics" then stripLinks item.links
    else Except.ok topics

/-- The topic list after the second pass over the items. -/
def buildTopics (items : List BibItem) : Except String (List String) :=
  foldES topicsStep [] items

/-! ### Field derivation from the Raw Field Map (lines 73–111) -/

/-- Lines 73–76: `Book Title` with default `'Unbekannt'`, then the subtitle
appended after `': '` when truthy. -/
def deriveTitle (meta : List (String × String)) : String :=
  let t := dictGetD meta "Book Title" "Unbekannt"
  let subtitle := dictGetD meta "Book Subtitle" ""
  if subtitle ≠ "" then t ++ ": " ++ subtitle else t

/-- Lines 81–84: split the editors string on commas when one is present,
otherwise a single trimmed name, otherwise the empty list. -/
def deriveAuthors (editors : String) : List String :=
  if strContainsSub editors "," then (splitComma editors).map strTrim
  else if editors ≠ "" then [strTrim editors] else []

/-- Python `a or b` on strings: `a` when nonempty, else `b`. -/
def pyOr (a b : String) : String := if a ≠ "" then a else b

/-- Line 92: `meta.get('eBook ISBN Date', '') or meta.get('Softcover ISBN Date', '')`. -/
def derivePubdateStr (meta : List (String × String)) : String :=
  pyOr (dictGetD meta "eBook ISBN Date" "") (dictGetD meta "Softcover ISBN Date" "")

/-- Lines 93–109: parse the date string through the format ladder when it is
nonempty; `None` otherwise. -/
def derivePubdate (meta : List (String × String)) : Option PDate :=
  let s := derivePubdateStr meta
  if s ≠ "" then parseDate s else none

/-- Lines 122–127: serialized first `c-book-section` div of the first
`About this book` section, or `''`. -/
def deriveComments (page : Page) : String :=
  match page.aboutSections with
  | [] => ""
  | divs :: _ =>
    match divs with
    | [] => ""
    | d :: _ => d

/-! ### The Normalized Record and the routine itself -/

/-- The calibre `Metadata` object as populated in lines 129–136. -/
structure Metadata where
  title : String
  /-- The code passes the comma-joined display string `authors_str`. -/
  authors : String
  publisher : String
  pubdate : Option PDate
  languages : List String
  comments : String
  isbn : String
  /-- `{'doi': doi, 'isbn': isbn}` in insertion order. -/
  identifiers : List (String × String)
  tags : List String
deriving Repr, DecidableEq

/-- Lines 129–136: assemble the record from the Raw Field Map, the topic list
and the comments fragment. -/
def mkRecord (isbn : String) (meta : List (String × String)) (topics : List String)
    (comments : String) : Metadata :=
  { title := deriveTitle meta
    authors := joinWith ", " (deriveAuthors (dictGetD meta "Editors" ""))
    publisher := dictGetD meta "Publisher" "Springer"
    pubdate := derivePubdate meta
    languages := ["de"]
    comments := comments
    isbn := isbn
    identifiers := [("doi", dictGetD meta "DOI" ""), ("isbn", isbn)]
    tags := topics }

/-- Lines 54–137, from the parsed page to the record: the log lines emitted
inside the `try` block paired with either the record or the message of the
exception that escaped to the outer handler. -/
def pageProcess (isbn : String) (page : Page) :
    List String × Except String Metadata :=
  match buildMeta (bibItemsOf page) with
  | Except.error e => ([], Except.error e)
  | Except.ok meta =>
    let editors := dictGetD meta "Editors" ""
    let log1 := "Editors: " ++ editors
    let log2 := "Authors: " ++ joinWith ", " (deriveAuthors editors)
    match buildTopics (bibItemsOf page) with
    | Except.error e => ([log1, log2], Except.error e)
    | Except.ok topics =>
      ([log1, log2], Except.ok (mkRecord isbn meta topics (deriveComments page)))

/-- Outcome of `urlopen` (plus parsing) for the single GET the routine makes:
an `HTTPError` with its status code, any other exception (connection failure,
timeout, a parse-level error), or the parsed page. -/
inductive FetchResult where
  | httpError (code : Nat)
  | exn (msg : String)
  | success (page : Page)
deriving Repr, DecidableEq

/-- Lines 34–36: `identifiers.get('isbn', None)` guarded by the truthiness of
`identifiers` (absent or empty mappings yield `None`). -/
def getIsbn (identifiers : Option (List (String × String))) : Option String :=
  match identifiers with
  | none => none
  | some m => if m.isEmpty then none else dictGet m "isbn"

/-- Observable outcome of one `identify` call: the log lines in order, the
records put on `result_queue` in order, and whether the network fetch was
attempted. -/
structure IdentifyResult where
  logs : List String
  queue : List Metadata
  fetched : Bool
deriving Repr, DecidableEq

/-- `SpringerMetadata.identify` (lines 33–140).  `title`, `authors` and
`timeout` are the unused-or-pass-through arguments; the fetch outcome for the
URL `https://link.springer.com/book/<isbn>` is the explicit `fetch`
parameter.  The dead `else` of lines 43–45 (unreachable, since `isbn` is
truthy there) is omitted. -/
def identify (title authors : Option String)
    (identifiers : Option (List (String × String))) (timeout : Nat)
    (fetch : FetchResult) : IdentifyResult :=
  match getIsbn identifiers with
  | none => ⟨["Springer-Plugin benötigt ISBN."], [], false⟩
  | some isbn =>
    if isbn = "" then ⟨["Springer-Plugin benötigt ISBN."], [], false⟩
    else
      match fetch with
      | FetchResult.httpError code =>
          ⟨["Fehler beim Abrufen der Seite: " ++ toString code], [], true⟩
      | FetchResult.exn msg => ⟨["Fehler: " ++ msg], [], true⟩
      | FetchResult.success page =>
        match pageProcess isbn page with
        | (logs, Except.ok mi) => ⟨logs, [mi], true⟩
        | (logs, Except.error e) => ⟨logs ++ ["Fehler: " ++ e], [], true⟩

/-- A failing call: missing or empty ISBN, an `HTTPError`, any other
exception during the fetch, or an exception escaping the page-processing
steps to the outer handler. -/
def identifyFails (identifiers : Option (List (String × String)))
    (fetch : FetchResult) : Prop :=
  (getIsbn identifiers = none ∨ getIsbn identifiers = some "") ∨
  (∃ c, fetch = FetchResult.httpError c) ∨
  (∃ m, fetch = FetchResult.exn m) ∨
  (∃ page e, fetch = FetchResult.success page ∧
    ∃ i, getIsbn identifiers = some i ∧ (pageProcess i page).2 = Except.error e)

/-! ## Helper lemmas -/

theorem isPrefixOf_self (l : List Char) : l.isPrefixOf l = true := by
  induction l with
  | nil => rfl
  | cons c cs ih => simp [List.isPrefixOf, ih]

theorem strContainsSub_append (p q : String) : strContainsSub (p ++ q) q = true := by
  have hd : (p ++ q).data = p.data ++ q.data := by
    cases p; cases q; rfl
  unfold strContainsSub
  rw [hd, List.any_eq_true]
  exact ⟨q.data, (List.mem_tails _ _).2 (List.suffix_append _ _), isPrefixOf_self _⟩

theorem mem_dictSet (m : List (String × String)) (l v k : String) (v' : String)
    (h : (k, v') ∈ dictSet m l v) : (k, v') ∈ m ∨ (k = l ∧ v' = v) := by
  unfold dictSet at h
  split at h
  · rcases List.mem_map.1 h with ⟨p, hp, hpe⟩
    by_cases hl : p.1 = l
    · rw [if_pos hl] at hpe
      right
      have h1 : k = l ∧ v' = v := by
        have := hpe.symm
        exact ⟨congrArg Prod.fst this, congrArg Prod.snd this⟩
      exact h1
    · rw [if_neg hl] at hpe
      left
      exact hpe ▸ hp
  · rcases List.mem_append.1 h with hm | hm
    · left; exact hm
    · right
      have he := List.mem_singleton.1 hm
      exact ⟨congrArg Prod.fst he, congrArg Prod.snd he⟩

/-! ## The claims -/

/-- C1: when the identifiers mapping is absent or contains no `isbn` entry,
`identify` logs the fixed diagnostic, performs no fetch and pushes no record,
regardless of `title`, `authors` and `timeout`. -/
theorem identify_without_isbn (t a : Option String)
    (ids : Option (List (String × String))) (tmo : Nat) (f : FetchResult)
    (h : ids = none ∨ ∃ m, ids = some m ∧ dictGet m "isbn" = none) :
    identify t a ids tmo f = ⟨["Springer-Plugin benötigt ISBN."], [], false⟩ := by
  have hg : getIsbn ids = none := by
    rcases h with rfl | ⟨m, rfl, hm⟩
    · rfl
    · simp [getIsbn, hm]
  unfold identify
  rw [hg]

/-- Witness for C1 at a concrete input. -/
theorem identify_without_isbn_witness :
    identify none none (some [("doi", "10.1007/x")]) 30 (FetchResult.httpError 404) =
      ⟨["Springer-Plugin benötigt ISBN."], [], false⟩ :=
  identify_without_isbn none none (some [("doi", "10.1007/x")]) 30
    (FetchResult.httpError 404) (Or.inr ⟨[("doi", "10.1007/x")], rfl, by decide⟩)

/-- C3: every exception raised between URL construction and emission is caught
by the outermost handler, logged as `Fehler: <message>`, and the call returns
normally with nothing pushed — `identify` is a total function, so nothing ever
propagates to the caller. -/
theorem identify_catches_exceptions (t a : Option String)
    (ids : Option (List (String × String))) (tmo : Nat) (f : FetchResult)
    (i : String) (h1 : getIsbn ids = some i) (h2 : i ≠ "") :
    (∀ m, f = FetchResult.exn m →
      identify t a ids tmo f = ⟨["Fehler: " ++ m], [], true⟩) ∧
    (∀ page logs e, f = FetchResult.success page →
      pageProcess i page = (logs, Except.error e) →
      identify t a ids tmo f = ⟨logs ++ ["Fehler: " ++ e], [], true⟩) := by
  constructor
  · intro m hm
    subst hm
    unfold identify
    rw [h1]
    simp only [if_neg h2]
  · intro page logs e hf hp
    subst hf
    unfold identify
    rw [h1]
    simp only [if_neg h2]
    rw [hp]

/-- Witness for C3: a fetch-level exception, and a page whose first
bibliographic item has a label span with null text (so line 63 raises an
`AttributeError` that reaches the outer handler). -/
theorem identify_catches_exceptions_witness :
    identify none none (some [("isbn", "9783031")]) 30 (FetchResult.exn "timed out") =
      ⟨["Fehler: timed out"], [], true⟩ ∧
    identify none none (some [("isbn", "9783031")]) 30
        (FetchResult.success ⟨[[⟨[none], [], [], []⟩]], []⟩) =
      ⟨["Fehler: NoneType object has no attribute strip"], [], true⟩ :=
  ⟨(identify_catches_exceptions none none (some [("isbn", "9783031")]) 30
      (FetchResult.exn "timed out") "9783031" rfl (by decide)).1 "timed out" rfl,
   (identify_catches_exceptions none none (some [("isbn", "9783031")]) 30
      (FetchResult.success ⟨[[⟨[none], [], [], []⟩]], []⟩) "9783031" rfl (by decide)).2
      ⟨[[⟨[none], [], [], []⟩]], []⟩ [] errStrip rfl rfl⟩

/-- C4: a fetch completing with an HTTP error status makes `identify` log a
single message containing the numeric status code and return with no record
pushed and no retry. -/
theorem identify_http_error (t a : Option String)
    (ids : Option (List (String × String))) (tmo : Nat) (i : String) (c : Nat)
    (h1 : getIsbn ids = some i) (h2 : i ≠ "") :
    identify t a ids tmo (FetchResult.httpError c) =
      ⟨["Fehler beim Abrufen der Seite: " ++ toString c], [], true⟩ ∧
    strContainsSub ("Fehler beim Abrufen der Seite: " ++ toString c) (toString c) = true := by
  constructor
  · unfold identify
    rw [h1]
    simp only [if_neg h2]
  · exact strContainsSub_append _ _

/-- Witness for C4 at a concrete input and status code 404. -/
theorem identify_http_error_witness :
    identify none none (some [("isbn", "9783031")]) 30 (FetchResult.httpError 404) =
      ⟨["Fehler beim Abrufen der Seite: " ++ toString 404], [], true⟩ ∧
    strContainsSub ("Fehler beim Abrufen der Seite: " ++ toString 404) (toString 404) = true :=
  identify_http_error none none (some [("isbn", "9783031")]) 30 "9783031" 404 rfl (by decide)

/-- C5: a page with none of the structural markers (no Bibliographic
Information section, hence no Topics item, and no About-this-book section)
still produces exactly one record, with every field at its default: title
`Unbekannt`, empty author string, publisher `Springer`, absent pubdate,
languages `['de']`, no tags, empty comments, and the input ISBN. -/
theorem identify_bare_page (t a : Option String)
    (ids : Option (List (String × String))) (tmo : Nat) (i : String)
    (h1 : getIsbn ids = some i) (h2 : i ≠ "") :
    identify t a ids tmo (FetchResult.success ⟨[], []⟩) =
      ⟨["Editors: ", "Authors: "],
       [{ title := "Unbekannt", authors := "", publisher := "Springer",
          pubdate := none, languages := ["de"], comments := "", isbn := i,
          identifiers := [("doi", ""), ("isbn", i)], tags := [] }], true⟩ := by
  unfold identify
  rw [h1]
  simp only [if_neg h2]
  rfl

/-- Witness for C5 at a concrete ISBN. -/
theorem identify_bare_page_witness :
    identify none none (some [("isbn", "9783031")]) 30 (FetchResult.success ⟨[], []⟩) =
      ⟨["Editors: ", "Authors: "],
       [{ title := "Unbekannt", authors := "", publisher := "Springer",
          pubdate := none, languages := ["de"], comments := "", isbn := "9783031",
          identifiers := [("doi", ""), ("isbn", "9783031")], tags := [] }], true⟩ :=
  identify_bare_page none none (some [("isbn", "9783031")]) 30 "9783031" rfl (by decide)

/-- C9: `identify` is deterministic, and its result depends only on the
identifiers and the fetched content — the unused `title`, `authors` and
`timeout` arguments cannot influence any field of the emitted record, so two
identical calls against the same page content give identical results. -/
theorem identify_deterministic (t1 a1 t2 a2 : Option String)
    (ids : Option (List (String × String))) (to1 to2 : Nat) (f : FetchResult) :
    identify t1 a1 ids to1 f = identify t2 a2 ids to2 f := rfl

/-- C2: at most one record is ever pushed per call; on any failing call
(missing ISBN, transport error, or an exception anywhere in the page
processing) exactly zero records are pushed; and whenever a record is pushed
the call went through the success path end to end. -/
theorem identify_pushes_at_most_once (t a : Option String)
    (ids : Option (List (String × String))) (tmo : Nat) (f : FetchResult) :
    (identify t a ids tmo f).queue.length ≤ 1 ∧
    (identifyFails ids f → (identify t a ids tmo f).queue = []) ∧
    (∀ mi, (identify t a ids tmo f).queue = [mi] →
      ∃ i page logs, getIsbn ids = some i ∧ i ≠ "" ∧
        f = FetchResult.success page ∧ pageProcess i page = (logs, Except.ok mi)) := by
  cases hg : getIsbn ids with
  | none =>
    refine ⟨?_, ?_, ?_⟩
    · simp [identify, hg]
    · intro _; simp [identify, hg]
    · intro mi h
      simp [identify, hg] at h
  | some i =>
    by_cases hie : i = ""
    · subst hie
      refine ⟨?_, ?_, ?_⟩
      · simp [identify, hg]
      · intro _; simp [identify, hg]
      · intro mi h
        simp [identify, hg] at h
    · cases f with
      | httpError c =>
        refine ⟨?_, ?_, ?_⟩
        · simp [identify, hg, hie]
        · intro _; simp [identify, hg, hie]
        · intro mi h
          simp [identify, hg, hie] at h
      | exn m =>
        refine ⟨?_, ?_, ?_⟩
        · simp [identify, hg, hie]
        · intro _; simp [identify, hg, hie]
        · intro mi h
          simp [identify, hg, hie] at h
      | success page =>
        rcases hp : pageProcess i page with ⟨logs, res⟩
        cases res with
        | error e =>
          refine ⟨?_, ?_, ?_⟩
          · simp [identify, hg, hie, hp]
          · intro _; simp [identify, hg, hie, hp]
          · intro mi h
            simp [identify, hg, hie, hp] at h
        | ok mi0 =>
          refine ⟨?_, ?_, ?_⟩
          · simp [identify, hg, hie, hp]
          · intro hfail
            rcases hfail with hmiss | ⟨c, hc⟩ | ⟨m, hm⟩ | ⟨page', e, hpe, i', hgi', hperr⟩
            · rcases hmiss with hn | he
              · rw [hg] at hn; exact absurd hn (by simp)
              · rw [hg] at he
                exact absurd (Option.some.inj he) hie
            · exact absurd hc (by simp)
            · exact absurd hm (by simp)
            · have hpp : page' = page := (FetchResult.success.inj hpe).symm
              subst hpp
              rw [hg] at hgi'
              have hii : i' = i := (Option.some.inj hgi').symm
              subst hii
              rw [hp] at hperr
              simp at hperr
          · intro mi h
            have hq : (identify t a ids tmo (FetchResult.success page)).queue = [mi0] := by
              simp [identify, hg, hie, hp]
            rw [hq] at h
            have : mi = mi0 := (List.cons.inj h.symm).1
            subst this
            exact ⟨i, page, logs, rfl, hie, rfl, hp⟩

/-- Witness for C2: a transport failure pushes nothing. -/
theorem identify_pushes_at_most_once_witness :
    (identify none none (some [("isbn", "9783031")]) 30 (FetchResult.httpError 500)).queue = [] :=
  (identify_pushes_at_most_once none none (some [("isbn", "9783031")]) 30
      (FetchResult.httpError 500)).2.1 (Or.inr (Or.inl ⟨500, rfl⟩))

/-- C6: the publication-date string prefers `eBook ISBN Date` over
`Softcover ISBN Date` and defaults to empty; parsing tries day-month-year,
then month-year, then year, first match winning, with missing day and month
defaulting to 1; an unparseable string leaves the date absent in the record,
raising nothing. -/
theorem pubdate_derivation :
    (∀ meta, parseDate (derivePubdateStr meta) = none → derivePubdate meta = none) ∧
    (∀ meta, dictGetD meta "eBook ISBN Date" "" ≠ "" →
      derivePubdateStr meta = dictGetD meta "eBook ISBN Date" "") ∧
    (∀ meta, dictGetD meta "eBook ISBN Date" "" = "" →
      derivePubdateStr meta = dictGetD meta "Softcover ISBN Date" "") ∧
    (∀ meta, dictGet meta "eBook ISBN Date" = none →
      dictGet meta "Softcover ISBN Date" = none → derivePubdateStr meta = "") ∧
    (∀ s d, parseDMY s = some d → parseDate s = some d) ∧
    (∀ s d, parseDMY s = none → parseMY s = some d → parseDate s = some d) ∧
    (∀ s, parseDMY s = none → parseMY s = none → parseDate s = parseY s) ∧
    parseDate "30 August 2025" = some ⟨2025, 8, 30⟩ ∧
    parseDate "August 2025" = some ⟨2025, 8, 1⟩ ∧
    parseDate "2025" = some ⟨2025, 1, 1⟩ ∧
    (∀ isbn meta topics comments,
      (mkRecord isbn meta topics comments).pubdate = derivePubdate meta) := by
  refine ⟨?_, ?_, ?_, ?_, ?_, ?_, ?_, ?_, ?_, ?_, ?_⟩
  · intro meta h
    unfold derivePubdate
    by_cases hs : derivePubdateStr meta = ""
    · simp [hs]
    · simp [hs, h]
  · intro meta h
    simp [derivePubdateStr, pyOr, h]
  · intro meta h
    simp [derivePubdateStr, pyOr, h]
  · intro meta h1 h2
    simp [derivePubdateStr, pyOr, dictGetD, h1, h2]
  · intro s d h
    unfold parseDate
    rw [h]
  · intro s d h1 h2
    unfold parseDate
    rw [h1, h2]
  · intro s h1 h2
    unfold parseDate
    rw [h1, h2]
  · decide
  · decide
  · decide
  · intro isbn meta topics comments
    rfl

/-- Witness for C6: a German month name defeats all three formats, so the
date stays absent. -/
theorem pubdate_derivation_witness :
    derivePubdate [("eBook ISBN Date", "Oktober 2025")] = none :=
  pubdate_derivation.1 [("eBook ISBN Date", "Oktober 2025")] (by decide)

/-- C7: the author list comes from the `Editors` value — split on commas and
trim each segment when a comma is present, a single trimmed name when
nonempty without a comma, and empty when the field is absent or empty. -/
theorem authors_derivation :
    (∀ s, strContainsSub s "," = false → s ≠ "" → deriveAuthors s = [strTrim s]) ∧
    (∀ s, strContainsSub s "," = true → deriveAuthors s = (splitComma s).map strTrim) ∧
    deriveAuthors "Jane Doe, John Smith" = ["Jane Doe", "John Smith"] ∧
    deriveAuthors "Jane Doe" = ["Jane Doe"] ∧
    deriveAuthors "" = [] ∧
    (∀ meta, dictGet meta "Editors" = none →
      deriveAuthors (dictGetD meta "Editors" "") = []) ∧
    (∀ isbn meta topics comments, (mkRecord isbn meta topics comments).authors =
      joinWith ", " (deriveAuthors (dictGetD meta "Editors" ""))) := by
  refine ⟨?_, ?_, ?_, ?_, ?_, ?_, ?_⟩
  · intro s h1 h2
    simp [deriveAuthors, h1, h2]
  · intro s h
    simp [deriveAuthors, h]
  · decide
  · decide
  · decide
  · intro meta h
    simp [dictGetD, h]
    decide
  · intro isbn meta topics comments
    rfl

/-- Witness for C7: a single name without a comma stays one name. -/
theorem authors_derivation_witness :
    deriveAuthors "Solo Name" = [strTrim "Solo Name"] :=
  authors_derivation.1 "Solo Name" (by decide) (by decide)

/-- C8: the title is the `Book Title` value, defaulting to `Unbekannt` when
absent, with a nonempty `Book Subtitle` appended after a colon and a space. -/
theorem title_derivation :
    (∀ meta t, dictGet meta "Book Title" = some t →
      dictGetD meta "Book Subtitle" "" = "" → deriveTitle meta = t) ∧
    (∀ meta, dictGet meta "Book Title" = none →
      dictGetD meta "Book Subtitle" "" = "" → deriveTitle meta = "Unbekannt") ∧
    (∀ meta sub, dictGetD meta "Book Subtitle" "" = sub → sub ≠ "" →
      deriveTitle meta = dictGetD meta "Book Title" "Unbekannt" ++ ": " ++ sub) ∧
    deriveTitle [("Book Title", "Foo"), ("Book Subtitle", "Bar")] = "Foo: Bar" ∧
    (∀ isbn meta topics comments,
      (mkRecord isbn meta topics comments).title = deriveTitle meta) := by
  refine ⟨?_, ?_, ?_, ?_, ?_⟩
  · intro meta t h1 h2
    unfold deriveTitle
    rw [h2]
    simp [dictGetD, h1]
  · intro meta h1 h2
    unfold deriveTitle
    rw [h2]
    simp [dictGetD, h1]
  · intro meta sub h1 h2
    simp [deriveTitle, h1, h2]
  · decide
  · intro isbn meta topics comments
    rfl

/-- Witness for C8: a present title with no subtitle is emitted verbatim. -/
theorem title_derivation_witness :
    deriveTitle [("Book Title", "Nur Titel")] = "Nur Titel" :=
  title_derivation.1 [("Book Title", "Nur Titel")] "Nur Titel" (by decide) (by decide)

theorem metaAfterPair_of_empty (meta : List (String × String)) (lt? : Option String) :
    metaAfterPair meta lt? (some "") = meta ∧ metaAfterPair meta lt? none = meta := by
  cases lt? <;> simp [metaAfterPair]

theorem mem_metaAfterPair (meta : List (String × String)) (lt? vt? : Option String)
    (k v : String) (h : (k, v) ∈ metaAfterPair meta lt? vt?) :
    (k, v) ∈ meta ∨ (k ≠ "" ∧ v ≠ "") := by
  cases lt? with
  | none => left; exact h
  | some l =>
    cases vt? with
    | none => left; exact h
    | some v' =>
      simp only [metaAfterPair] at h
      by_cases hc : l ≠ "" ∧ v' ≠ ""
      · rw [if_pos hc] at h
        rcases mem_dictSet meta l v' k v h with hm | ⟨hk, hv⟩
        · left; exact hm
        · right
          exact ⟨by rw [hk]; exact hc.1, by rw [hv]; exact hc.2⟩
      · rw [if_neg hc] at h
        left; exact h

theorem metaAfterDate_nil (meta : List (String × String)) (lt? : Option String) :
    metaAfterDate meta lt? [] = Except.ok meta := by
  cases lt? with
  | none => rfl
  | some l =>
    simp only [metaAfterDate]
    split <;> rfl

theorem bibStep_err_eq (meta : List (String × String)) (item : BibItem) (e : String)
    (hlt : labelTextOf item = Except.error e) : bibStep meta item = Except.error e := by
  unfold bibStep
  rw [hlt]

theorem bibStep_ok_eq (meta : List (String × String)) (item : BibItem)
    (lt? : Option String) (hlt : labelTextOf item = Except.ok lt?) :
    bibStep meta item =
      metaAfterDate (metaAfterPair meta lt? (valueTextOf item)) lt? item.dateSpans := by
  unfold bibStep
  rw [hlt]

theorem bibStep_clear_values (meta : List (String × String)) (item : BibItem)
    (h : valueTextOf item = some "" ∨ valueTextOf item = none) :
    bibStep meta item = bibStep meta { item with values := [] } := by
  cases hlt : labelTextOf item with
  | error e =>
    rw [bibStep_err_eq meta item e hlt,
        bibStep_err_eq meta { item with values := [] } e hlt]
  | ok lt? =>
    rw [bibStep_ok_eq meta item lt? hlt,
        bibStep_ok_eq meta { item with values := [] } lt? hlt,
        show valueTextOf { item with values := [] } = none from rfl,
        (metaAfterPair_of_empty meta lt?).2]
    rcases h with h | h
    · rw [h, (metaAfterPair_of_empty meta lt?).1]
    · rw [h, (metaAfterPair_of_empty meta lt?).2]

theorem topicsStep_clear_values (topics : List String) (item : BibItem) :
    topicsStep topics item = topicsStep topics { item with values := [] } := rfl

theorem foldES_replace {α β : Type} (f : β → α → Except String β) (x y : α)
    (hxy : ∀ b, f b x = f b y) :
    ∀ (pre post : List α) (init : β),
      foldES f init (pre ++ x :: post) = foldES f init (pre ++ y :: post) := by
  intro pre
  induction pre with
  | nil =>
    intro post init
    simp only [List.nil_append, foldES]
    rw [hxy]
  | cons p ps ih =>
    intro post init
    simp only [List.cons_append, foldES]
    cases f init p with
    | error e => rfl
    | ok b => exact ih post b

/-- C10: a label/value pair enters the Raw Field Map only when both the
stripped label and the stripped value text are nonempty, so an item whose
value span is empty or whitespace-only behaves — through the map, the topics
pass, and the whole record — exactly as if the value span were absent. -/
theorem raw_field_map_value_gate :
    (∀ meta item meta' k v, item.dateSpans = [] →
      bibStep meta item = Except.ok meta' → (k, v) ∈ meta' →
      (k, v) ∈ meta ∨ (k ≠ "" ∧ v ≠ "")) ∧
    (∀ meta item, valueTextOf item = some "" ∨ valueTextOf item = none →
      bibStep meta item = bibStep meta { item with values := [] }) ∧
    (∀ topics item, topicsStep topics item = topicsStep topics { item with values := [] }) ∧
    (∀ isbn pre item post rest about, valueTextOf item = some "" →
      pageProcess isbn ⟨(pre ++ item :: post) :: rest, about⟩ =
        pageProcess isbn ⟨(pre ++ { item with values := [] } :: post) :: rest, about⟩) := by
  refine ⟨?_, ?_, ?_, ?_⟩
  · intro meta item meta' k v hds hstep hmem
    cases hlt : labelTextOf item with
    | error e =>
      rw [bibStep_err_eq meta item e hlt] at hstep
      exact absurd hstep (by simp)
    | ok lt? =>
      rw [bibStep_ok_eq meta item lt? hlt, hds, metaAfterDate_nil] at hstep
      have hm : meta' = metaAfterPair meta lt? (valueTextOf item) :=
        (Except.ok.inj hstep).symm
      exact mem_metaAfterPair meta lt? (valueTextOf item) k v (hm ▸ hmem)
  · exact bibStep_clear_values
  · exact topicsStep_clear_values
  · intro isbn pre item post rest about hv
    have hbib : ∀ b, bibStep b item = bibStep b { item with values := [] } :=
      fun b => bibStep_clear_values b item (Or.inl hv)
    have htop : ∀ b, topicsStep b item = topicsStep b { item with values := [] } :=
      fun b => topicsStep_clear_values b item
    simp only [pageProcess, buildMeta, buildTopics, bibItemsOf, deriveComments]
    rw [foldES_replace bibStep item { item with values := [] } hbib pre post,
        foldES_replace topicsStep item { item with values := [] } htop pre post]

/-- Witness for C10: an item with label `Softcover ISBN` and a whitespace-only
value span is processed exactly like one with no value span at all. -/
theorem raw_field_map_value_gate_witness :
    pageProcess "9783031" ⟨[[⟨[some "Softcover ISBN"], ["  "], [], []⟩]], []⟩ =
      pageProcess "9783031" ⟨[[⟨[some "Softcover ISBN"], [], [], []⟩]], []⟩ :=
  raw_field_map_value_gate.2.2.2 "9783031" [] ⟨[some "Softcover ISBN"], ["  "], [], []⟩ [] [] []
    (by decide)

end SpringerSpec
